import Mathlib

/-!
Verification of the constant-pool subsystem of the kirjava class-file
library. Python/Cython sources are embedded shallowly: strings are lists
of Unicode code points, byte streams are lists of naturals consumed from
the front, Python dicts are association lists with overwrite-on-set
semantics, and exceptions are explicit error results. Loops that the
source bounds are translated to structurally recursive functions; the
one loop the source does not bound (the constant-pool fix-up loop) takes
an explicit fuel argument so that its non-termination is observable as
fuel exhaustion at every fuel.
-/

namespace Kirjava

/-- Python dict lookup `d.get(k, None)` over an association list. -/
def alistGet {α β : Type} [DecidableEq α] (l : List (α × β)) (k : α) : Option β :=
  match l with
  | [] => none
  | (k', v) :: rest => if k' = k then some v else alistGet rest k

/-- Python dict assignment `d[k] = v`: overwrites the binding when the key
is present, otherwise appends a new binding. -/
def alistSet {α β : Type} [DecidableEq α] (l : List (α × β)) (k : α) (v : β) : List (α × β) :=
  match l with
  | [] => [(k, v)]
  | (k', v') :: rest => if k' = k then (k, v) :: rest else (k', v') :: alistSet rest k v

/-! ## MUTF-8 codec (BinaryCodec / UTF8 constant payloads)

The source encodes with `value.encode("utf-8").replace(b"\xc0\x80" for NUL)`
and decodes with `bytes.replace(C0 80 -> 00).decode("utf-8", errors="ignore")`.
`utf8EncodeChar`/`utf8Decode` embed Python's standard UTF-8 codec; the
decoder's recovery on an invalid byte (skip it and continue) approximates
`errors="ignore"`, which the round-trip claims never exercise. -/

/-- A Unicode scalar value: a code point that is not a surrogate. A Python
string with no unpaired surrogates encodes exactly its scalar values. -/
def validScalar (c : Nat) : Prop := c < 0x110000 ∧ (c < 0xD800 ∨ 0xDFFF < c)

instance (c : Nat) : Decidable (validScalar c) := by unfold validScalar; infer_instance

/-- Standard UTF-8 encoding of one scalar value (1 to 4 bytes). -/
def utf8EncodeChar (c : Nat) : List Nat :=
  if c < 0x80 then [c]
  else if c < 0x800 then [0xC0 + c / 64, 0x80 + c % 64]
  else if c < 0x10000 then [0xE0 + c / 4096, 0x80 + c / 64 % 64, 0x80 + c % 64]
  else [0xF0 + c / 262144, 0x80 + c / 4096 % 64, 0x80 + c / 64 % 64, 0x80 + c % 64]

/-- Standard UTF-8 encoding of a string, scalar by scalar
(Python `str.encode("utf-8")`). -/
def utf8Encode : List Nat → List Nat
  | [] => []
  | c :: s => utf8EncodeChar c ++ utf8Encode s

/-- One step of standard UTF-8 decoding: given the first byte and the bytes
after it, the decoded scalar and the bytes after its sequence, accepting
exactly the valid sequences (no overlong forms, no surrogates, at most
U+10FFFF); `none` when the first byte starts no valid sequence. -/
def utf8DecodeStep (b0 : Nat) (rest : List Nat) : Option (Nat × List Nat) :=
  if b0 < 0x80 then some (b0, rest)
  else if 0xC2 ≤ b0 ∧ b0 < 0xE0 then
    match rest with
    | b1 :: rest2 =>
      if 0x80 ≤ b1 ∧ b1 < 0xC0 then some ((b0 - 0xC0) * 64 + (b1 - 0x80), rest2)
      else none
    | [] => none
  else if 0xE0 ≤ b0 ∧ b0 < 0xF0 then
    match rest with
    | b1 :: b2 :: rest3 =>
      if (0x80 ≤ b1 ∧ b1 < 0xC0 ∧ (b0 = 0xE0 → 0xA0 ≤ b1) ∧ (b0 = 0xED → b1 < 0xA0))
          ∧ (0x80 ≤ b2 ∧ b2 < 0xC0) then
        some ((b0 - 0xE0) * 4096 + (b1 - 0x80) * 64 + (b2 - 0x80), rest3)
      else none
    | _ => none
  else if 0xF0 ≤ b0 ∧ b0 < 0xF5 then
    match rest with
    | b1 :: b2 :: b3 :: rest4 =>
      if (0x80 ≤ b1 ∧ b1 < 0xC0 ∧ (b0 = 0xF0 → 0x90 ≤ b1) ∧ (b0 = 0xF4 → b1 < 0x90))
          ∧ (0x80 ≤ b2 ∧ b2 < 0xC0) ∧ (0x80 ≤ b3 ∧ b3 < 0xC0) then
        some ((b0 - 0xF0) * 262144 + (b1 - 0x80) * 4096 + (b2 - 0x80) * 64
          + (b3 - 0x80), rest4)
      else none
    | _ => none
  else none

/-- The decoding loop, with the recursion bounded by an explicit fuel:
every step consumes at least the first byte, so a fuel of the list's
length (as `utf8Decode` passes) never runs out. A failed step skips one
byte and continues, approximating `errors="ignore"` (the round-trip
claims never reach a failed step). -/
def utf8DecodeAux : Nat → List Nat → List Nat
  | 0, _ => []
  | _ + 1, [] => []
  | fuel + 1, b0 :: rest =>
    match utf8DecodeStep b0 rest with
    | some (c, tail) => c :: utf8DecodeAux fuel tail
    | none => utf8DecodeAux fuel rest

/-- Standard UTF-8 decoding (Python `bytes.decode("utf-8", errors="ignore")`). -/
def utf8Decode (l : List Nat) : List Nat := utf8DecodeAux l.length l

/-- Python `bs.replace(b"\x00", b"\xc0\x80")` (the pattern is one byte, so
the left-to-right scan is a pointwise expansion). -/
def replaceNull : List Nat → List Nat
  | [] => []
  | b :: rest => if b = 0 then 0xC0 :: 0x80 :: replaceNull rest else b :: replaceNull rest

/-- Python `bs.replace(b"\xc0\x80", b"\x00")`: left-to-right, non-overlapping. -/
def replaceC080 : List Nat → List Nat
  | [] => []
  | [b] => [b]
  | b0 :: b1 :: rest =>
    if b0 = 0xC0 ∧ b1 = 0x80 then 0 :: replaceC080 rest
    else b0 :: replaceC080 (b1 :: rest)

/-- The MUTF-8 payload the UTF8 constant writes:
`value.encode("utf-8").replace(b"\x00", b"\xc0\x80")` (part_001:120). -/
def mutf8Payload (s : List Nat) : List Nat := replaceNull (utf8Encode s)

/-! ## The constant taxonomy (part_001) -/

/-- Resolved constants, one constructor per `ConstantInfo` subclass plus the
`Index` sentinel. Strings are lists of code points; `float`/`double` carry
the raw IEEE-754 bit pattern read from the stream (no claim depends on
float semantics). Reference-bearing constants store their referents as the
source stores the resolved objects. Equality is modelled from the spec:
the base class `Constant` (abc/constant, not among the staged files) gives
constants the deep structural equality and hashing the spec requires for
the deduplicating `backward` map, which Lean's structural equality on this
inductive provides. -/
inductive Constant where
  | index (i : Nat)
  | utf8 (value : List Nat)
  | integer (value : Int)
  | float (bits : Nat)
  | long (value : Int)
  | double (bits : Nat)
  | class_ (name : List Nat)
  | string (value : List Nat)
  | fieldRef (class_ nameAndType : Constant)
  | methodRef (class_ nameAndType : Constant)
  | interfaceMethodRef (class_ nameAndType : Constant)
  | nameAndType (name descriptor_ : List Nat)
  | methodHandle (referenceKind : Nat) (reference : Constant)
  | methodType (descriptor_ : List Nat)
  | dynamic (bootstrapMethodAttrIndex : Nat) (nameAndType : Constant)
  | invokeDynamic (bootstrapMethodAttrIndex : Nat) (nameAndType : Constant)
  | module (name : List Nat)
  | package (name : List Nat)
deriving DecidableEq

/-- The class attribute `wide` (True on Long and Double only). -/
def Constant.wide : Constant → Bool
  | .long _ => true
  | .double _ => true
  | _ => false

/-- Python `type(item) is Index`. -/
def Constant.isIndex : Constant → Bool
  | .index _ => true
  | _ => false

/-- Python `isinstance(c, Class)`. -/
def Constant.isClass : Constant → Bool
  | .class_ _ => true
  | _ => false

/-- Python `isinstance(c, NameAndType)`. -/
def Constant.isNameAndType : Constant → Bool
  | .nameAndType _ _ => true
  | _ => false

/-- Python `isinstance(c, FieldRef)`. -/
def Constant.isFieldRef : Constant → Bool
  | .fieldRef _ _ => true
  | _ => false

/-- Python `isinstance(c, MethodRef)`: true for MethodRef and its subclass
InterfaceMethodRef. -/
def Constant.isMethodRefLike : Constant → Bool
  | .methodRef _ _ => true
  | .interfaceMethodRef _ _ => true
  | _ => false

/-- Modelled from the spec: the `Version` class (kirjava/version, not among
the staged files) holds a major and minor number compared lexicographically;
every constant's `since` has minor 0, so `since > version` agrees with the
spec's "since exceeds the file's major version". -/
structure Version where
  major : Nat
  minor : Nat
deriving DecidableEq

/-- Lexicographic strict order on versions (`a < b`). -/
def Version.lt (a b : Version) : Bool :=
  a.major < b.major || (a.major == b.major && a.minor < b.minor)

/-- One identifier per concrete `ConstantInfo` subclass, standing for the
class object itself (the values of `_constant_map`). -/
inductive CTag where
  | utf8 | integer | float | long | double | class_ | string
  | fieldRef | methodRef | interfaceMethodRef | nameAndType
  | methodHandle | methodType | dynamic | invokeDynamic | module | package
deriving DecidableEq

/-- The class attribute `wide`. -/
def CTag.wide : CTag → Bool
  | .long => true
  | .double => true
  | _ => false

/-- The class attribute `since`. -/
def CTag.since : CTag → Version
  | .methodHandle => ⟨51, 0⟩
  | .methodType => ⟨51, 0⟩
  | .dynamic => ⟨55, 0⟩
  | .invokeDynamic => ⟨51, 0⟩
  | .module => ⟨53, 0⟩
  | .package => ⟨53, 0⟩
  | _ => ⟨45, 0⟩

/-- The dict `_constant_map` (part_001:1201): tag byte to class. -/
def constantMap (tagByte : Nat) : Option CTag :=
  match tagByte with
  | 1 => some .utf8
  | 3 => some .integer
  | 4 => some .float
  | 5 => some .long
  | 6 => some .double
  | 7 => some .class_
  | 8 => some .string
  | 9 => some .fieldRef
  | 10 => some .methodRef
  | 11 => some .interfaceMethodRef
  | 12 => some .nameAndType
  | 15 => some .methodHandle
  | 16 => some .methodType
  | 17 => some .dynamic
  | 18 => some .invokeDynamic
  | 19 => some .module
  | 20 => some .package
  | _ => none

/-- The deferred reference info a non-primitive `read` returns: one pool
index (Class, String, MethodType, Module, Package), or two u16 payloads
(the ref/NameAndType pairs, MethodHandle's kind+index, Dynamic's
bootstrap-index+index). -/
inductive Info where
  | one (a : Nat)
  | two (a b : Nat)
deriving DecidableEq

/-- Big-endian u16 from the stream (`unpack_H(buffer.read(2))`, which raises
when fewer than two bytes remain). -/
def readU16 (buf : List Nat) : Option (Nat × List Nat) :=
  match buf with
  | b0 :: b1 :: rest => some (b0 * 256 + b1, rest)
  | _ => none

/-- Two's-complement reading of a 32-bit big-endian payload (`unpack_i`). -/
def toSigned32 (n : Nat) : Int :=
  if n < 2 ^ 31 then (n : Int) else (n : Int) - 2 ^ 32

/-- Two's-complement reading of a 64-bit big-endian payload (`unpack_q`). -/
def toSigned64 (n : Nat) : Int :=
  if n < 2 ^ 63 then (n : Int) else (n : Int) - 2 ^ 64

/-- Each variant's classmethod `read`: primitive constants come back
resolved (`Sum.inl`), reference-bearing constants come back as deferred
info (`Sum.inr`). `none` models the struct-unpack error on a truncated
stream. The UTF8 arm is part_001:102-106: a two-byte length, then that many
bytes, `replace(b"\xc0\x80", b"\x00")`, then lenient UTF-8 decoding (and
`buffer.read(n)` returns at most `n` bytes without raising). -/
def CTag.readInfo : CTag → List Nat → Option ((Constant ⊕ Info) × List Nat)
  | .utf8, buf =>
    match readU16 buf with
    | some (n, rest) =>
      some (.inl (.utf8 (utf8Decode (replaceC080 (rest.take n)))), rest.drop n)
    | none => none
  | .integer, b0 :: b1 :: b2 :: b3 :: rest =>
    some (.inl (.integer (toSigned32 (((b0 * 256 + b1) * 256 + b2) * 256 + b3))), rest)
  | .integer, _ => none
  | .float, b0 :: b1 :: b2 :: b3 :: rest =>
    some (.inl (.float (((b0 * 256 + b1) * 256 + b2) * 256 + b3)), rest)
  | .float, _ => none
  | .long, b0 :: b1 :: b2 :: b3 :: b4 :: b5 :: b6 :: b7 :: rest =>
    some (.inl (.long (toSigned64 (((((((b0 * 256 + b1) * 256 + b2) * 256 + b3) * 256
      + b4) * 256 + b5) * 256 + b6) * 256 + b7))), rest)
  | .long, _ => none
  | .double, b0 :: b1 :: b2 :: b3 :: b4 :: b5 :: b6 :: b7 :: rest =>
    some (.inl (.double (((((((b0 * 256 + b1) * 256 + b2) * 256 + b3) * 256
      + b4) * 256 + b5) * 256 + b6) * 256 + b7)), rest)
  | .double, _ => none
  | .class_, buf =>
    match readU16 buf with
    | some (i, rest) => some (.inr (.one i), rest)
    | none => none
  | .string, buf =>
    match readU16 buf with
    | some (i, rest) => some (.inr (.one i), rest)
    | none => none
  | .methodType, buf =>
    match readU16 buf with
    | some (i, rest) => some (.inr (.one i), rest)
    | none => none
  | .module, buf =>
    match readU16 buf with
    | some (i, rest) => some (.inr (.one i), rest)
    | none => none
  | .package, buf =>
    match readU16 buf with
    | some (i, rest) => some (.inr (.one i), rest)
    | none => none
  | .fieldRef, b0 :: b1 :: b2 :: b3 :: rest =>
    some (.inr (.two (b0 * 256 + b1) (b2 * 256 + b3)), rest)
  | .fieldRef, _ => none
  | .methodRef, b0 :: b1 :: b2 :: b3 :: rest =>
    some (.inr (.two (b0 * 256 + b1) (b2 * 256 + b3)), rest)
  | .methodRef, _ => none
  | .interfaceMethodRef, b0 :: b1 :: b2 :: b3 :: rest =>
    some (.inr (.two (b0 * 256 + b1) (b2 * 256 + b3)), rest)
  | .interfaceMethodRef, _ => none
  | .nameAndType, b0 :: b1 :: b2 :: b3 :: rest =>
    some (.inr (.two (b0 * 256 + b1) (b2 * 256 + b3)), rest)
  | .nameAndType, _ => none
  | .methodHandle, k :: b0 :: b1 :: rest =>
    some (.inr (.two k (b0 * 256 + b1)), rest)
  | .methodHandle, _ => none
  | .dynamic, b0 :: b1 :: b2 :: b3 :: rest =>
    some (.inr (.two (b0 * 256 + b1) (b2 * 256 + b3)), rest)
  | .dynamic, _ => none
  | .invokeDynamic, b0 :: b1 :: b2 :: b3 :: rest =>
    some (.inr (.two (b0 * 256 + b1) (b2 * 256 + b3)), rest)
  | .invokeDynamic, _ => none

/-- Outcome of a `dereference` classmethod: the resolved constant, `None`
(pending, only the variants that return it), a TypeError on a referent of
the wrong kind (`kindMismatch`), or the bare Exception the primitive/Index
variants raise when dereferenced (`invalid`, unreachable from `read`). -/
inductive DerefResult where
  | resolved (c : Constant)
  | pending
  | kindMismatch
  | invalid
deriving DecidableEq

/-- part_001:436-441. Note the isinstance check fails for an absent
referent (`None`) exactly as for one of the wrong class. -/
def Class.dereference (lookups : Nat → Option Constant) (info : Nat) : DerefResult :=
  match lookups info with
  | some (.utf8 s) => .resolved (.class_ s)
  | _ => .kindMismatch

/-- part_001:481-486. -/
def String.dereference (lookups : Nat → Option Constant) (info : Nat) : DerefResult :=
  match lookups info with
  | some (.utf8 s) => .resolved (.string s)
  | _ => .kindMismatch

/-- part_001:521-533. -/
def FieldRef.dereference (lookups : Nat → Option Constant) (a b : Nat) : DerefResult :=
  match lookups a with
  | none => .pending
  | some c =>
    if c.isClass then
      match lookups b with
      | none => .pending
      | some n => if n.isNameAndType then .resolved (.fieldRef c n) else .kindMismatch
    else .kindMismatch

/-- part_001:577-589. -/
def MethodRef.dereference (lookups : Nat → Option Constant) (a b : Nat) : DerefResult :=
  match lookups a with
  | none => .pending
  | some c =>
    if c.isClass then
      match lookups b with
      | none => .pending
      | some n => if n.isNameAndType then .resolved (.methodRef c n) else .kindMismatch
    else .kindMismatch

/-- part_001:627-639. -/
def InterfaceMethodRef.dereference (lookups : Nat → Option Constant) (a b : Nat) :
    DerefResult :=
  match lookups a with
  | none => .pending
  | some c =>
    if c.isClass then
      match lookups b with
      | none => .pending
      | some n =>
        if n.isNameAndType then .resolved (.interfaceMethodRef c n) else .kindMismatch
    else .kindMismatch

/-- part_001:661-669: both referents go through the isinstance check, so an
absent referent raises like a wrong-kind one. -/
def NameAndType.dereference (lookups : Nat → Option Constant) (a b : Nat) : DerefResult :=
  match lookups a with
  | some (.utf8 n) =>
    match lookups b with
    | some (.utf8 d) => .resolved (.nameAndType n d)
    | _ => .kindMismatch
  | _ => .kindMismatch

/-- part_001:722-729: `isinstance(reference, MethodRef)` accepts the
subclass InterfaceMethodRef, so any Field/Method/InterfaceMethodRef passes
regardless of the reference kind (the documented leniency). -/
def MethodHandle.dereference (lookups : Nat → Option Constant) (kind refIndex : Nat) :
    DerefResult :=
  match lookups refIndex with
  | none => .pending
  | some r =>
    if r.isFieldRef || r.isMethodRefLike then .resolved (.methodHandle kind r)
    else .kindMismatch

/-- part_001:767-772. -/
def MethodType.dereference (lookups : Nat → Option Constant) (info : Nat) : DerefResult :=
  match lookups info with
  | some (.utf8 d) => .resolved (.methodType d)
  | _ => .kindMismatch

/-- part_001:808-815: only `info[1]` is a pool reference; `info[0]` is the
bootstrap-method attribute index, kept verbatim. -/
def Dynamic.dereference (lookups : Nat → Option Constant) (bsm natIndex : Nat) :
    DerefResult :=
  match lookups natIndex with
  | none => .pending
  | some n => if n.isNameAndType then .resolved (.dynamic bsm n) else .kindMismatch

/-- part_001:851-858. -/
def InvokeDynamic.dereference (lookups : Nat → Option Constant) (bsm natIndex : Nat) :
    DerefResult :=
  match lookups natIndex with
  | none => .pending
  | some n => if n.isNameAndType then .resolved (.invokeDynamic bsm n) else .kindMismatch

/-- part_001:880-884. -/
def Module.dereference (lookups : Nat → Option Constant) (info : Nat) : DerefResult :=
  match lookups info with
  | some (.utf8 s) => .resolved (.module s)
  | _ => .kindMismatch

/-- part_001:916-920. -/
def Package.dereference (lookups : Nat → Option Constant) (info : Nat) : DerefResult :=
  match lookups info with
  | some (.utf8 s) => .resolved (.package s)
  | _ => .kindMismatch

/-- Dispatch `constant.dereference(lookups, info)` by class. A shape the
variant's own `read` never produces lands in `invalid` (like calling
`dereference` on a primitive or Index constant, which raises). -/
def CTag.dereference : CTag → (Nat → Option Constant) → Info → DerefResult
  | .class_, lookups, .one i => Class.dereference lookups i
  | .string, lookups, .one i => String.dereference lookups i
  | .methodType, lookups, .one i => MethodType.dereference lookups i
  | .module, lookups, .one i => Module.dereference lookups i
  | .package, lookups, .one i => Package.dereference lookups i
  | .fieldRef, lookups, .two a b => FieldRef.dereference lookups a b
  | .methodRef, lookups, .two a b => MethodRef.dereference lookups a b
  | .interfaceMethodRef, lookups, .two a b => InterfaceMethodRef.dereference lookups a b
  | .nameAndType, lookups, .two a b => NameAndType.dereference lookups a b
  | .methodHandle, lookups, .two k i => MethodHandle.dereference lookups k i
  | .dynamic, lookups, .two bsm i => Dynamic.dereference lookups bsm i
  | .invokeDynamic, lookups, .two bsm i => InvokeDynamic.dereference lookups bsm i
  | _, _, _ => .invalid

/-! ## The UTF8 constant's serialized form (part_001:102-122) -/

/-- `pack_H(n)`: two big-endian bytes; struct raises when the value does
not fit in a u16. -/
def packH (n : Nat) : Option (List Nat) :=
  if n < 65536 then some [n / 256, n % 256] else none

/-- `UTF8.write` (part_001:119-122): the emitted bytes, a two-byte length
prefix followed by the MUTF-8 payload. -/
def UTF8.write (s : List Nat) : Option (List Nat) :=
  match packH (mutf8Payload s).length with
  | some pre => some (pre ++ mutf8Payload s)
  | none => none

/-- `UTF8.read` (part_001:102-106): length prefix, then at most that many
bytes, `replace(b"\xc0\x80", b"\x00")`, lenient UTF-8 decode. Returns the
constant and the unconsumed stream. -/
def UTF8.read (buf : List Nat) : Option (Constant × List Nat) :=
  match readU16 buf with
  | some (n, rest) =>
    some (.utf8 (utf8Decode (replaceC080 (rest.take n))), rest.drop n)
  | none => none

/-! ## ConstantPool (part_001:933-1178) -/

/-- The pool state: `_index` (the next free index, starting at 1),
`_forward_entries : index to constant` and `_backward_entries : constant
to index`. -/
structure ConstantPool where
  index : Nat
  forward : List (Nat × Constant)
  backward : List (Constant × Nat)
deriving DecidableEq

/-- `ConstantPool.__init__`. -/
def ConstantPool.init : ConstantPool := ⟨1, [], []⟩

/-- The argument of `add`: a constant, or a plain string (coerced to a
UTF8 constant, part_001:1131-1132). -/
inductive AddArg where
  | const (c : Constant)
  | str (s : List Nat)
deriving DecidableEq

/-- The constant `add` works on after the string coercion. -/
def AddArg.toConstant : AddArg → Constant
  | .const c => c
  | .str s => .utf8 s

/-- `ConstantPool.add` (part_001:1123-1148): an `Index` argument returns
its own value without mutation; a constant already in `backward` returns
its existing index; otherwise the constant is installed at `_index`, which
advances by 1, or by 2 for a wide constant. Returns (index, new pool). -/
def ConstantPool.add (pool : ConstantPool) (arg : AddArg) : Nat × ConstantPool :=
  match arg.toConstant with
  | .index n => (n, pool)
  | c =>
    match alistGet pool.backward c with
    | some i => (i, pool)
    | none =>
      (pool.index,
        ⟨if c.wide then pool.index + 2 else pool.index + 1,
         alistSet pool.forward pool.index c,
         alistSet pool.backward c pool.index⟩)

/-- `ConstantPool.__setitem__` (part_001:1029-1040): an `Index` item is a
no-op; any other constant is installed at the given index in both maps —
unconditionally, occupied or not — and `_index` is bumped past the index
when necessary. -/
def ConstantPool.setItem (pool : ConstantPool) (index : Nat) (item : Constant) :
    ConstantPool :=
  match item with
  | .index _ => pool
  | c =>
    ⟨if index ≥ pool.index then (if c.wide then index + 2 else index + 1) else pool.index,
     alistSet pool.forward index c,
     alistSet pool.backward c index⟩

/-- The integer arm of `ConstantPool.__getitem__` (part_001:1015-1020): the
constant at the index, or an `Index` sentinel for an empty slot. -/
def ConstantPool.getItemIdx (pool : ConstantPool) (item : Nat) : Constant :=
  match alistGet pool.forward item with
  | some c => c
  | none => .index item

/-- `ConstantPool.get` (part_001:1072-1091): the constant at the index;
for an empty slot a non-None default wins, else `do_raise` raises
IndexError (`Except.error`), else an `Index` sentinel. -/
def ConstantPool.get (pool : ConstantPool) (index : Nat) (default : Option Constant)
    (do_raise : Bool) : Except Unit Constant :=
  match alistGet pool.forward index with
  | some c => .ok c
  | none =>
    match default with
    | some d => .ok d
    | none => if do_raise then .error () else .ok (.index index)

/-- Errors `ConstantPool.read` can raise: struct errors on a truncated
stream, the unknown-tag and version ValueErrors (part_001:963-967), the
TypeError a `dereference` raises on a wrong-kind referent, and the
Exception of an unreachable `dereference`. -/
inductive ReadErr where
  | truncated
  | unknownTag (tagByte : Nat)
  | versionTooLow
  | kindMismatch
  | invalid
deriving DecidableEq

/-- Outcome of `ConstantPool.read` at a given fuel: the pool, an error, or
fuel exhausted inside the fix-up loop. The source's fix-up loop has no
bound at all (the FIXME at part_001:983), so an input whose read is
`outOfFuel` at every fuel is one the source loops on forever. -/
inductive ReadResult where
  | ok (pool : ConstantPool)
  | err (e : ReadErr)
  | outOfFuel
deriving DecidableEq

/-- The first pass of `ConstantPool.read` (part_001:961-979): the while
loop `while offset < constants_count`, with the loop bound carried as the
fuel argument `constants_count - offset`, kept in lock-step with `offset`
(a wide constant advances `offset` by 2 and so burns two fuel; when that
exhausts the fuel the loop exits exactly as `offset` passes the count).
Reads a tag byte (ValueError on an unknown one, ValueError when the
variant's `since` exceeds the version), then the variant's `read`:
resolved constants go into both maps at `offset`, deferred info onto the
`uncomputed` queue. Returns the final offset (which becomes `_index`),
both maps and the queue. -/
def readEntries (version : Version) :
    Nat → Nat → List Nat → List (Nat × Constant) → List (Constant × Nat) →
    List (Nat × CTag × Info) →
    Except ReadErr (Nat × List (Nat × Constant) × List (Constant × Nat) ×
      List (Nat × CTag × Info))
  | 0, offset, _, fwd, bwd, uncomputed => .ok (offset, fwd, bwd, uncomputed)
  | fuel + 1, offset, buf, fwd, bwd, uncomputed =>
    match buf with
    | [] => .error .truncated
    | tagByte :: buf1 =>
      match constantMap tagByte with
      | none => .error (.unknownTag tagByte)
      | some ct =>
        if Version.lt version ct.since then .error .versionTooLow
        else
          match ct.readInfo buf1 with
          | none => .error .truncated
          | some (.inl c, buf2) =>
            if ct.wide then
              match fuel with
              | 0 => .ok (offset + 2, alistSet fwd offset c, alistSet bwd c offset,
                  uncomputed)
              | fuel' + 1 =>
                readEntries version fuel' (offset + 2) buf2 (alistSet fwd offset c)
                  (alistSet bwd c offset) uncomputed
            else
              readEntries version fuel (offset + 1) buf2 (alistSet fwd offset c)
                (alistSet bwd c offset) uncomputed
          | some (.inr info, buf2) =>
            if ct.wide then
              match fuel with
              | 0 => .ok (offset + 2, fwd, bwd, uncomputed ++ [(offset, ct, info)])
              | fuel' + 1 =>
                readEntries version fuel' (offset + 2) buf2 fwd bwd
                  (uncomputed ++ [(offset, ct, info)])
            else
              readEntries version fuel (offset + 1) buf2 fwd bwd
                (uncomputed ++ [(offset, ct, info)])

/-- The fix-up loop of `ConstantPool.read` (part_001:984-992): pop the
head of the queue, `dereference` it against `forward`; `None` re-enqueues
at the tail, a resolved constant is installed in both maps, a TypeError
propagates. The source runs this `while uncomputed:` with no progress
guard, so it is given explicit fuel; `outOfFuel` marks an iteration the
source would keep running. -/
def fixup (finalIndex : Nat) :
    Nat → List (Nat × CTag × Info) → List (Nat × Constant) → List (Constant × Nat) →
    ReadResult
  | _, [], fwd, bwd => .ok ⟨finalIndex, fwd, bwd⟩
  | 0, _ :: _, _, _ => .outOfFuel
  | fuel + 1, (off, ct, info) :: rest, fwd, bwd =>
    match ct.dereference (alistGet fwd) info with
    | .pending => fixup finalIndex fuel (rest ++ [(off, ct, info)]) fwd bwd
    | .resolved c => fixup finalIndex fuel rest (alistSet fwd off c) (alistSet bwd c off)
    | .kindMismatch => .err .kindMismatch
    | .invalid => .err .invalid

/-- `ConstantPool.read(version, buffer)` (part_001:942-994): the entry
count, the first pass from offset 1, then the fix-up loop (with `fuel`
bounding only the unbounded fix-up loop). -/
def ConstantPool.read (fuel : Nat) (version : Version) (buf : List Nat) : ReadResult :=
  match readU16 buf with
  | none => .err .truncated
  | some (constantsCount, rest) =>
    match readEntries version (constantsCount - 1) 1 rest [] [] [] with
    | .error e => .err e
    | .ok (finalOffset, fwd, bwd, uncomputed) => fixup finalOffset fuel uncomputed fwd bwd

/-! ## InsnBlock (analysis/_block.pxi) -/

/-- Modelled from the spec: the instruction classes (classfile/instructions,
not among the staged files). The block contract only distinguishes
JumpInstruction, ReturnInstruction, the athrow singleton, and everything
else; `opcode` keeps distinct instructions distinct. -/
inductive Instruction where
  | jump (opcode : Nat)
  | ret (opcode : Nat)
  | athrow
  | other (opcode : Nat)
deriving DecidableEq

/-- A jump, a return, or athrow: the control-flow-terminating instructions
`_check_instruction` refuses. -/
def Instruction.isTerminating : Instruction → Bool
  | .jump _ => true
  | .ret _ => true
  | .athrow => true
  | .other _ => false

/-- `InsnBlock._check_instruction` (_block.pxi:95-106): ValueError
(IllegalInstruction) on a jump, a return, or athrow. -/
def checkInstruction (x : Instruction) : Except Unit Unit :=
  match x with
  | .jump _ => .error ()
  | .ret _ => .error ()
  | .athrow => .error ()
  | .other _ => .ok ()

/-- An instruction block: a label and an ordered instruction list. -/
structure InsnBlock where
  label : Int
  instructions : List Instruction
deriving DecidableEq

/-- `InsnBlock.append` (_block.pxi:110-124): with `do_raise` the check runs
before the list is touched, so an error leaves the block unchanged; the
appended instruction is returned with the updated block. -/
def InsnBlock.append (b : InsnBlock) (x : Instruction) (do_raise : Bool) :
    Except Unit (Instruction × InsnBlock) :=
  if do_raise then
    match checkInstruction x with
    | .error e => .error e
    | .ok _ => .ok (x, { b with instructions := b.instructions ++ [x] })
  else .ok (x, { b with instructions := b.instructions ++ [x] })

/-- `InsnBlock.insert` (_block.pxi:126-140): Python `list.insert` clamps an
index past the end, appending. -/
def InsnBlock.insert (b : InsnBlock) (index : Nat) (x : Instruction) (do_raise : Bool) :
    Except Unit (Instruction × InsnBlock) :=
  if do_raise then
    match checkInstruction x with
    | .error e => .error e
    | .ok _ =>
      .ok (x, { b with instructions :=
        b.instructions.take index ++ x :: b.instructions.drop index })
  else
    .ok (x, { b with instructions :=
      b.instructions.take index ++ x :: b.instructions.drop index })

/-! ## MUTF-8 round-trip lemmas (for C4) -/

theorem utf8DecodeStep_ascii (b0 : Nat) (rest : List Nat) (h : b0 < 0x80) :
    utf8DecodeStep b0 rest = some (b0, rest) := by
  simp [utf8DecodeStep, h]

theorem utf8DecodeStep_two (b0 b1 : Nat) (rest : List Nat)
    (h0 : 0xC2 ≤ b0 ∧ b0 < 0xE0) (h1 : 0x80 ≤ b1 ∧ b1 < 0xC0) :
    utf8DecodeStep b0 (b1 :: rest) = some ((b0 - 0xC0) * 64 + (b1 - 0x80), rest) := by
  have hn1 : ¬ b0 < 0x80 := by omega
  simp [utf8DecodeStep, hn1, h0, h1]

theorem utf8DecodeStep_three (b0 b1 b2 : Nat) (rest : List Nat)
    (h0 : 0xE0 ≤ b0 ∧ b0 < 0xF0)
    (h1 : 0x80 ≤ b1 ∧ b1 < 0xC0 ∧ (b0 = 0xE0 → 0xA0 ≤ b1) ∧ (b0 = 0xED → b1 < 0xA0))
    (h2 : 0x80 ≤ b2 ∧ b2 < 0xC0) :
    utf8DecodeStep b0 (b1 :: b2 :: rest) =
      some ((b0 - 0xE0) * 4096 + (b1 - 0x80) * 64 + (b2 - 0x80), rest) := by
  have hn1 : ¬ b0 < 0x80 := by omega
  have hn2 : ¬ (0xC2 ≤ b0 ∧ b0 < 0xE0) := by omega
  simp [utf8DecodeStep, hn1, hn2, h0, h1.1, h1.2.1, h2]
  exact ⟨h1.2.2.1, h1.2.2.2⟩

theorem utf8DecodeStep_four (b0 b1 b2 b3 : Nat) (rest : List Nat)
    (h0 : 0xF0 ≤ b0 ∧ b0 < 0xF5)
    (h1 : 0x80 ≤ b1 ∧ b1 < 0xC0 ∧ (b0 = 0xF0 → 0x90 ≤ b1) ∧ (b0 = 0xF4 → b1 < 0x90))
    (h2 : 0x80 ≤ b2 ∧ b2 < 0xC0) (h3 : 0x80 ≤ b3 ∧ b3 < 0xC0) :
    utf8DecodeStep b0 (b1 :: b2 :: b3 :: rest) =
      some ((b0 - 0xF0) * 262144 + (b1 - 0x80) * 4096 + (b2 - 0x80) * 64 + (b3 - 0x80),
        rest) := by
  have hn1 : ¬ b0 < 0x80 := by omega
  have hn2 : ¬ (0xC2 ≤ b0 ∧ b0 < 0xE0) := by omega
  have hn3 : ¬ (0xE0 ≤ b0 ∧ b0 < 0xF0) := by omega
  simp [utf8DecodeStep, hn1, hn2, hn3, h0, h1.1, h1.2.1, h2, h3]
  exact ⟨h1.2.2.1, h1.2.2.2⟩

/-- A successful step never lengthens the remaining bytes. -/
theorem utf8DecodeStep_tail_length (b0 c : Nat) (rest tail : List Nat)
    (h : utf8DecodeStep b0 rest = some (c, tail)) : tail.length ≤ rest.length := by
  unfold utf8DecodeStep at h
  split_ifs at h with h1 h2 h3 h4
  · simp only [Option.some.injEq, Prod.mk.injEq] at h
    rw [← h.2]
  · cases rest with
    | nil => simp at h
    | cons b1 rest2 =>
      simp only [] at h
      split_ifs at h
      simp only [Option.some.injEq, Prod.mk.injEq] at h
      rw [← h.2]
      simp only [List.length_cons]
      omega
  · cases rest with
    | nil => simp at h
    | cons b1 r =>
      cases r with
      | nil => simp at h
      | cons b2 rest3 =>
        simp only [] at h
        split_ifs at h
        simp only [Option.some.injEq, Prod.mk.injEq] at h
        rw [← h.2]
        simp only [List.length_cons]
        omega
  · cases rest with
    | nil => simp at h
    | cons b1 r =>
      cases r with
      | nil => simp at h
      | cons b2 r2 =>
        cases r2 with
        | nil => simp at h
        | cons b3 rest4 =>
          simp only [] at h
          split_ifs at h
          simp only [Option.some.injEq, Prod.mk.injEq] at h
          rw [← h.2]
          simp only [List.length_cons]
          omega

/-- Enough fuel makes the decoding loop agree with `utf8Decode`. -/
theorem utf8DecodeAux_eq_decode :
    ∀ (fuel : Nat) (l : List Nat), l.length ≤ fuel →
      utf8DecodeAux fuel l = utf8Decode l := by
  intro fuel
  induction fuel using Nat.strong_induction_on with
  | _ fuel ih =>
    intro l hl
    match fuel, l with
    | 0, [] => rfl
    | _ + 1, [] => rfl
    | n + 1, b0 :: rest =>
      have hr : rest.length ≤ n := by
        simp only [List.length_cons] at hl
        omega
      rw [utf8Decode]
      cases hs : utf8DecodeStep b0 rest with
      | none =>
        simp only [List.length_cons, utf8DecodeAux, hs]
        rw [ih n (by omega) rest hr, ih rest.length (by omega) rest le_rfl]
      | some ct =>
        obtain ⟨c, tail⟩ := ct
        have htl := utf8DecodeStep_tail_length b0 c rest tail hs
        simp only [List.length_cons, utf8DecodeAux, hs]
        rw [ih n (by omega) tail (le_trans htl hr),
          ih rest.length (by omega) tail htl]

/-- Peeling one successful step off `utf8Decode`. -/
theorem utf8Decode_cons_step (b0 c : Nat) (rest tail : List Nat)
    (hs : utf8DecodeStep b0 rest = some (c, tail)) :
    utf8Decode (b0 :: rest) = c :: utf8Decode tail := by
  have htl := utf8DecodeStep_tail_length b0 c rest tail hs
  rw [utf8Decode]
  simp only [List.length_cons, utf8DecodeAux, hs]
  rw [utf8DecodeAux_eq_decode rest.length tail htl]

/-- The encoding of a scalar begins a valid sequence whose decoding step
returns the scalar and consumes exactly the encoding. -/
theorem utf8EncodeChar_step (c : Nat) (h : validScalar c) (rest : List Nat) :
    ∃ b0 tl, utf8EncodeChar c = b0 :: tl ∧
      utf8DecodeStep b0 (tl ++ rest) = some (c, rest) := by
  obtain ⟨hlt, hsur⟩ := h
  by_cases h1 : c < 0x80
  · exact ⟨c, [], by simp [utf8EncodeChar, h1], by
      rw [List.nil_append, utf8DecodeStep_ascii c rest h1]⟩
  · by_cases h2 : c < 0x800
    · refine ⟨0xC0 + c / 64, [0x80 + c % 64], by simp [utf8EncodeChar, h1, h2], ?_⟩
      rw [List.cons_append, List.nil_append,
        utf8DecodeStep_two _ _ rest ⟨by omega, by omega⟩ ⟨by omega, by omega⟩,
        show (0xC0 + c / 64 - 0xC0) * 64 + (0x80 + c % 64 - 0x80) = c by omega]
    · by_cases h3 : c < 0x10000
      · refine ⟨0xE0 + c / 4096, [0x80 + c / 64 % 64, 0x80 + c % 64],
          by simp [utf8EncodeChar, h1, h2, h3], ?_⟩
        rw [List.cons_append, List.cons_append, List.nil_append,
          utf8DecodeStep_three _ _ _ rest ⟨by omega, by omega⟩
            ⟨by omega, by omega, by omega, by omega⟩ ⟨by omega, by omega⟩,
          show (0xE0 + c / 4096 - 0xE0) * 4096 + (0x80 + c / 64 % 64 - 0x80) * 64 +
            (0x80 + c % 64 - 0x80) = c by omega]
      · refine ⟨0xF0 + c / 262144,
          [0x80 + c / 4096 % 64, 0x80 + c / 64 % 64, 0x80 + c % 64],
          by simp [utf8EncodeChar, h1, h2, h3], ?_⟩
        rw [List.cons_append, List.cons_append, List.cons_append, List.nil_append,
          utf8DecodeStep_four _ _ _ _ rest ⟨by omega, by omega⟩
            ⟨by omega, by omega, by omega, by omega⟩ ⟨by omega, by omega⟩
            ⟨by omega, by omega⟩,
          show (0xF0 + c / 262144 - 0xF0) * 262144 + (0x80 + c / 4096 % 64 - 0x80) * 4096
            + (0x80 + c / 64 % 64 - 0x80) * 64 + (0x80 + c % 64 - 0x80) = c by omega]

theorem utf8Decode_encodeChar (c : Nat) (h : validScalar c) (rest : List Nat) :
    utf8Decode (utf8EncodeChar c ++ rest) = c :: utf8Decode rest := by
  obtain ⟨b0, tl, henc, hstep⟩ := utf8EncodeChar_step c h rest
  rw [henc, List.cons_append]
  exact utf8Decode_cons_step b0 c (tl ++ rest) rest hstep

/-- Decoding inverts encoding on strings of scalars. -/
theorem utf8Decode_utf8Encode (s : List Nat) (h : ∀ c ∈ s, validScalar c) :
    utf8Decode (utf8Encode s) = s := by
  induction s with
  | nil => rfl
  | cons c s ih =>
    rw [utf8Encode, utf8Decode_encodeChar c (h c (List.mem_cons_self c s)) _,
      ih (fun x hx => h x (List.mem_cons_of_mem c hx))]

/-- UTF-8 encoding never emits the byte C0. -/
theorem utf8EncodeChar_ne_c0 (c : Nat) : ∀ b ∈ utf8EncodeChar c, b ≠ 0xC0 := by
  intro b hb
  unfold utf8EncodeChar at hb
  split_ifs at hb with h1 h2 h3 <;> simp at hb
  · omega
  · rcases hb with rfl | rfl <;> omega
  · rcases hb with rfl | rfl | rfl <;> omega
  · rcases hb with rfl | rfl | rfl | rfl <;> omega

theorem utf8Encode_ne_c0 (s : List Nat) : ∀ b ∈ utf8Encode s, b ≠ 0xC0 := by
  induction s with
  | nil => simp [utf8Encode]
  | cons c s ih =>
    intro b hb
    rw [utf8Encode] at hb
    rcases List.mem_append.mp hb with h | h
    · exact utf8EncodeChar_ne_c0 c b h
    · exact ih b h

theorem replaceC080_cons_of_ne (b : Nat) (l : List Nat) (hb : b ≠ 0xC0) :
    replaceC080 (b :: l) = b :: replaceC080 l := by
  cases l with
  | nil => rfl
  | cons b1 r => simp [replaceC080, hb]

/-- On bytes free of C0, expanding NUL to C0 80 and contracting C0 80 back
to NUL are inverse. -/
theorem replaceC080_replaceNull (bs : List Nat) (h : ∀ b ∈ bs, b ≠ 0xC0) :
    replaceC080 (replaceNull bs) = bs := by
  induction bs with
  | nil => rfl
  | cons b rest ih =>
    have ih' := ih (fun x hx => h x (List.mem_cons_of_mem b hx))
    by_cases hb : b = 0
    · subst hb
      simp [replaceNull, replaceC080, ih']
    · have hbc : b ≠ 0xC0 := h b (List.mem_cons_self b rest)
      rw [replaceNull]
      simp only [if_neg hb]
      rw [replaceC080_cons_of_ne b _ hbc, ih']

/-- C4: for every string of Unicode scalars whose MUTF-8 payload fits the
u16 length field, `UTF8.write` succeeds and `UTF8.read` of the emitted
bytes returns the same string (consuming everything); and the MUTF-8
encoding of U+0000 is exactly the two bytes C0 80. -/
theorem mutf8_roundtrip (s : List Nat) (h1 : ∀ c ∈ s, validScalar c)
    (h2 : (mutf8Payload s).length < 65536) :
    (∃ bs, UTF8.write s = some bs ∧ UTF8.read bs = some (.utf8 s, [])) ∧
    mutf8Payload [0] = [0xC0, 0x80] := by
  constructor
  · refine ⟨(mutf8Payload s).length / 256 :: (mutf8Payload s).length % 256 ::
      mutf8Payload s, ?_, ?_⟩
    · rw [UTF8.write, packH, if_pos h2]
      simp
    · rw [UTF8.read]
      simp only [readU16]
      have hn : (mutf8Payload s).length / 256 * 256 + (mutf8Payload s).length % 256 =
          (mutf8Payload s).length := by omega
      rw [hn, List.take_length, List.drop_length, mutf8Payload,
        replaceC080_replaceNull _ (utf8Encode_ne_c0 s), utf8Decode_utf8Encode s h1]
  · decide

/-- C4 witness: the string "a NUL b". -/
theorem mutf8_roundtrip_witness :
    (∃ bs, UTF8.write [97, 0, 98] = some bs ∧
      UTF8.read bs = some (.utf8 [97, 0, 98], [])) ∧
    mutf8Payload [0] = [0xC0, 0x80] :=
  mutf8_roundtrip [97, 0, 98] (by decide) (by decide)

/-! ## Dictionary lemmas -/

theorem alistGet_set_self {α β : Type} [DecidableEq α] (l : List (α × β)) (k : α) (v : β) :
    alistGet (alistSet l k v) k = some v := by
  induction l with
  | nil => simp [alistGet, alistSet]
  | cons hd tl ih =>
    obtain ⟨a, b⟩ := hd
    by_cases h : a = k
    · subst h; simp [alistGet, alistSet]
    · simp [alistGet, alistSet, h, ih]

theorem alistGet_set_ne {α β : Type} [DecidableEq α] (l : List (α × β)) (k k' : α) (v : β)
    (h : k ≠ k') : alistGet (alistSet l k v) k' = alistGet l k' := by
  induction l with
  | nil => simp [alistGet, alistSet, h]
  | cons hd tl ih =>
    obtain ⟨a, b⟩ := hd
    by_cases ha : a = k
    · subst ha; simp [alistGet, alistSet, h]
    · simp [alistGet, alistSet, ha, ih]

theorem isIndex_iff (c : Constant) : c.isIndex = true ↔ ∃ n, c = .index n := by
  cases c <;> simp [Constant.isIndex]

/-- The non-Index arm of `add`, written out. -/
theorem add_eq_of_not_index (pool : ConstantPool) (arg : AddArg)
    (h : arg.toConstant.isIndex = false) :
    pool.add arg =
      (match alistGet pool.backward arg.toConstant with
       | some i => (i, pool)
       | none =>
         (pool.index,
           ⟨if arg.toConstant.wide then pool.index + 2 else pool.index + 1,
            alistSet pool.forward pool.index arg.toConstant,
            alistSet pool.backward arg.toConstant pool.index⟩)) := by
  cases harg : arg.toConstant <;> simp_all [ConstantPool.add, Constant.isIndex]

/-- The Index arm of `add`. -/
theorem add_eq_of_index (pool : ConstantPool) (arg : AddArg) (n : Nat)
    (h : arg.toConstant = .index n) : pool.add arg = (n, pool) := by
  simp [ConstantPool.add, h]

/-- The non-Index arm of `__setitem__`, written out. -/
theorem setItem_eq_of_not_index (pool : ConstantPool) (i : Nat) (c : Constant)
    (h : c.isIndex = false) :
    pool.setItem i c =
      ⟨if i ≥ pool.index then (if c.wide then i + 2 else i + 1) else pool.index,
       alistSet pool.forward i c, alistSet pool.backward c i⟩ := by
  cases c <;> simp_all [ConstantPool.setItem, Constant.isIndex]

/-! ## The claims -/

/-- C1: the claim says `ConstantPool.read` always terminates, failing with
UnresolvableReferences when a full pass over the work queue resolves
nothing. The code has no such guard (the FIXME at part_001:983): on a pool
whose single FieldRef refers to its own unresolved slot, the fix-up loop
re-enqueues the entry forever. At every fuel the read is still running. -/
theorem read_cyclic_pool_never_terminates :
    ∀ fuel : Nat, ConstantPool.read fuel ⟨52, 0⟩ [0, 2, 9, 0, 1, 0, 1] =
      ReadResult.outOfFuel := by
  intro fuel
  have h : ∀ n, fixup 2 n [(1, CTag.fieldRef, Info.two 1 1)] [] [] =
      ReadResult.outOfFuel := by
    intro n
    induction n with
    | zero => rfl
    | succ k ih => simpa [fixup, CTag.dereference, FieldRef.dereference, alistGet] using ih
  exact h fuel

/-- C2 counterexample: the claim says assigning a non-Index constant to an
occupied slot fails with SlotOccupied and leaves the pool unchanged. On a
pool holding UTF8 "a" at index 1, `pool[1] = Integer(5)` rebinds the slot
and changes the pool; no error exists. -/
theorem setitem_overwrites_occupied_cex :
    alistGet ((ConstantPool.init.add (.const (.utf8 [97]))).2.setItem 1
        (.integer 5)).forward 1 = some (.integer 5) ∧
    (ConstantPool.init.add (.const (.utf8 [97]))).2.setItem 1 (.integer 5) ≠
      (ConstantPool.init.add (.const (.utf8 [97]))).2 := by decide

/-- C2 amended: `__setitem__` with a non-Index constant never fails: it
installs the constant at the index in both maps even when the slot already
holds a resolved constant (an Index item is a no-op; there is no
SlotOccupied error). -/
theorem setitem_overwrites (pool : ConstantPool) (i : Nat) (c old : Constant)
    (hc : c.isIndex = false) (hold : alistGet pool.forward i = some old) :
    alistGet (pool.setItem i c).forward i = some c ∧
    alistGet (pool.setItem i c).backward c = some i := by
  rw [setItem_eq_of_not_index pool i c hc]
  exact ⟨alistGet_set_self _ _ _, alistGet_set_self _ _ _⟩

/-- C2 witness: the amended theorem at the counterexample's pool. -/
theorem setitem_overwrites_witness :
    alistGet ((ConstantPool.init.add (.const (.utf8 [97]))).2.setItem 1
        (.integer 5)).forward 1 = some (.integer 5) ∧
    alistGet ((ConstantPool.init.add (.const (.utf8 [97]))).2.setItem 1
        (.integer 5)).backward (.integer 5) = some 1 :=
  setitem_overwrites (ConstantPool.init.add (.const (.utf8 [97]))).2 1 (.integer 5)
    (.utf8 [97]) (by decide) (by decide)

/-- C5 counterexample: the claim says `UTF8.write` on "a NUL b" emits
00 03 61 C0 80 62. The payload 61 C0 80 62 is four bytes and the length
field reports the byte length of the payload, so the code emits
00 04 61 C0 80 62. -/
theorem utf8_write_nul_cex :
    UTF8.write [97, 0, 98] = some [0, 4, 97, 192, 128, 98] ∧
    UTF8.write [97, 0, 98] ≠ some [0, 3, 97, 192, 128, 98] := by decide

/-- C5 amended: `UTF8.write` on "a NUL b" emits exactly 00 04 61 C0 80 62:
the NUL encodes as C0 80, the MUTF-8 payload is the four bytes
61 C0 80 62, and the two-byte length field reports that byte length 4. -/
theorem utf8_write_nul_bytes :
    UTF8.write [97, 0, 98] = some [0, 4, 97, 192, 128, 98] ∧
    (mutf8Payload [97, 0, 98]).length = 4 ∧
    mutf8Payload [97, 0, 98] = [97, 192, 128, 98] := by decide

/-- C10: `get` with an empty slot, a non-None default and `do_raise=True`
returns the default and does not raise: the default check precedes the
`do_raise` check (part_001:1082-1091). -/
theorem get_default_precedence (pool : ConstantPool) (i : Nat) (d : Constant)
    (h : alistGet pool.forward i = none) :
    pool.get i (some d) true = .ok d := by
  simp [ConstantPool.get, h]

/-- C10 witness: an empty pool at index 1. -/
theorem get_default_precedence_witness :
    ConstantPool.init.get 1 (some (.integer 7)) true = .ok (.integer 7) :=
  get_default_precedence ConstantPool.init 1 (.integer 7) rfl

/-- C9: a constant whose `since` exceeds the file's version makes
`ConstantPool.read` fail with the version ValueError on encountering its
tag, for any variant, any such version and any following bytes. -/
theorem read_version_gate (v : Version) (t : CTag) (tagByte : Nat) (rest : List Nat)
    (fuel : Nat) (hm : constantMap tagByte = some t)
    (hv : Version.lt v t.since = true) :
    ConstantPool.read fuel v (0 :: 2 :: tagByte :: rest) = .err .versionTooLow := by
  simp [ConstantPool.read, readU16, readEntries, hm, hv]

/-- C9 witness: a Module constant (tag 19) in a version-52 file. -/
theorem read_version_gate_witness :
    ConstantPool.read 0 ⟨52, 0⟩ [0, 2, 19, 0, 1] = .err .versionTooLow :=
  read_version_gate ⟨52, 0⟩ .module 19 [0, 1] 0 rfl (by decide)

/-- C8: a control-flow-terminating instruction (jump, return, athrow) is
refused by `append` and `insert` under the default `do_raise=True` — the
check runs before the list is touched, so the block is unchanged — while
`do_raise=False` adds it. -/
theorem block_append_terminating (b : InsnBlock) (k : Nat) (x : Instruction)
    (hx : x.isTerminating = true) :
    b.append x true = .error () ∧
    b.insert k x true = .error () ∧
    b.append x false = .ok (x, ⟨b.label, b.instructions ++ [x]⟩) ∧
    b.insert k x false =
      .ok (x, ⟨b.label, b.instructions.take k ++ x :: b.instructions.drop k⟩) := by
  have hc : checkInstruction x = .error () := by
    cases x <;> simp_all [Instruction.isTerminating, checkInstruction]
  refine ⟨?_, ?_, ?_, ?_⟩ <;> simp [InsnBlock.append, InsnBlock.insert, hc]

/-- C8 witness: a goto (opcode 167) against a one-instruction block. -/
theorem block_append_terminating_witness :
    InsnBlock.append ⟨0, [.other 0]⟩ (.jump 167) true = .error () ∧
    InsnBlock.insert ⟨0, [.other 0]⟩ 0 (.jump 167) true = .error () ∧
    InsnBlock.append ⟨0, [.other 0]⟩ (.jump 167) false =
      .ok (.jump 167, ⟨0, [.other 0, .jump 167]⟩) ∧
    InsnBlock.insert ⟨0, [.other 0]⟩ 0 (.jump 167) false =
      .ok (.jump 167, ⟨0, [.jump 167, .other 0]⟩) :=
  block_append_terminating ⟨0, [.other 0]⟩ 0 (.jump 167) rfl

/-- C6: adding a constant structurally equal to one just added (a plain
string coerces to a Utf8 constant) returns the same index and leaves the
pool — entry count and next index included — unchanged; a constant not yet
in `backward` (and not an Index) is assigned `_index`, which then advances
by 1, or 2 for a wide constant. -/
theorem add_dedup_and_fresh (pool : ConstantPool) (a1 a2 : AddArg) (c : Constant)
    (heq : a1.toConstant = a2.toConstant)
    (hnew : alistGet pool.backward c = none) (hni : c.isIndex = false) :
    (((pool.add a1).2.add a2).1 = (pool.add a1).1 ∧
      ((pool.add a1).2.add a2).2 = (pool.add a1).2 ∧
      ((pool.add a1).2.add a2).2.forward.length = (pool.add a1).2.forward.length ∧
      ((pool.add a1).2.add a2).2.index = (pool.add a1).2.index) ∧
    (pool.add (.const c)).1 = pool.index ∧
    (pool.add (.const c)).2.index = pool.index + (if c.wide then 2 else 1) := by
  constructor
  · have hmain : ((pool.add a1).2.add a2).1 = (pool.add a1).1 ∧
        ((pool.add a1).2.add a2).2 = (pool.add a1).2 := by
      by_cases hidx : a1.toConstant.isIndex = true
      · obtain ⟨n, hn⟩ := (isIndex_iff _).mp hidx
        rw [add_eq_of_index pool a1 n hn, add_eq_of_index pool a2 n (heq ▸ hn)]
        exact ⟨rfl, rfl⟩
      · have hidx1 : a1.toConstant.isIndex = false := by simpa using hidx
        have hidx2 : a2.toConstant.isIndex = false := heq ▸ hidx1
        rw [add_eq_of_not_index pool a1 hidx1]
        cases hb : alistGet pool.backward a1.toConstant with
        | some i =>
          simp only [hb]
          rw [add_eq_of_not_index pool a2 hidx2, ← heq, hb]
          exact ⟨rfl, rfl⟩
        | none =>
          simp only [hb]
          rw [add_eq_of_not_index _ a2 hidx2, ← heq]
          simp [alistGet_set_self]
    exact ⟨hmain.1, hmain.2, by rw [hmain.2], by rw [hmain.2]⟩
  · have hc : (AddArg.const c).toConstant = c := rfl
    rw [add_eq_of_not_index pool (.const c) (by simpa [hc] using hni)]
    simp only [hc, hnew]
    by_cases hw : c.wide = true <;> simp [hw]

/-- C6 witness: `add("hello")` then `add(Utf8("hello"))` on an empty pool
give the same index 1 and the same one-entry pool, and a fresh Class
constant lands at the next index, advancing it by 1. -/
theorem add_dedup_and_fresh_witness :
    (((ConstantPool.init.add (.str [104, 101, 108, 108, 111])).2.add
          (.const (.utf8 [104, 101, 108, 108, 111]))).1 =
        (ConstantPool.init.add (.str [104, 101, 108, 108, 111])).1 ∧
      ((ConstantPool.init.add (.str [104, 101, 108, 108, 111])).2.add
          (.const (.utf8 [104, 101, 108, 108, 111]))).2 =
        (ConstantPool.init.add (.str [104, 101, 108, 108, 111])).2 ∧
      ((ConstantPool.init.add (.str [104, 101, 108, 108, 111])).2.add
          (.const (.utf8 [104, 101, 108, 108, 111]))).2.forward.length =
        (ConstantPool.init.add (.str [104, 101, 108, 108, 111])).2.forward.length ∧
      ((ConstantPool.init.add (.str [104, 101, 108, 108, 111])).2.add
          (.const (.utf8 [104, 101, 108, 108, 111]))).2.index =
        (ConstantPool.init.add (.str [104, 101, 108, 108, 111])).2.index) ∧
    (ConstantPool.init.add (.const (.class_ [70]))).1 = ConstantPool.init.index ∧
    (ConstantPool.init.add (.const (.class_ [70]))).2.index =
      ConstantPool.init.index + (if (Constant.class_ [70]).wide then 2 else 1) :=
  add_dedup_and_fresh ConstantPool.init (.str [104, 101, 108, 108, 111])
    (.const (.utf8 [104, 101, 108, 108, 111])) (.class_ [70]) rfl rfl (by decide)

/-- C7: a fresh wide constant in a pool whose occupied indices all lie
below `_index` is assigned `i = _index`; afterwards the next index is
`i + 2`, slot `i + 1` is unoccupied, `pool[i + 1]` is the `Index(i + 1)`
sentinel, and `get(i + 1, do_raise=True)` raises. -/
theorem add_wide_stride (pool : ConstantPool) (c : Constant) (hw : c.wide = true)
    (hinv : ∀ k cc, alistGet pool.forward k = some cc → k < pool.index)
    (hnew : alistGet pool.backward c = none) :
    (pool.add (.const c)).1 = pool.index ∧
    (pool.add (.const c)).2.index = pool.index + 2 ∧
    alistGet (pool.add (.const c)).2.forward (pool.index + 1) = none ∧
    (pool.add (.const c)).2.getItemIdx (pool.index + 1) = .index (pool.index + 1) ∧
    (pool.add (.const c)).2.get (pool.index + 1) none true = .error () := by
  have hni : c.isIndex = false := by
    cases c <;> simp_all [Constant.wide, Constant.isIndex]
  have hc : (AddArg.const c).toConstant = c := rfl
  rw [add_eq_of_not_index pool (.const c) (by simpa [hc] using hni)]
  simp only [hc, hnew, hw, if_true]
  have hup : alistGet (alistSet pool.forward pool.index c) (pool.index + 1) = none := by
    rw [alistGet_set_ne _ _ _ _ (by omega)]
    cases h : alistGet pool.forward (pool.index + 1) with
    | none => rfl
    | some cc => exact absurd (hinv _ _ h) (by omega)
  exact ⟨trivial, trivial, hup, by simp [ConstantPool.getItemIdx, hup],
    by simp [ConstantPool.get, hup]⟩

/-- C7 witness: a Long added to the empty pool takes index 1, the next
index becomes 3, and slot 2 stays empty in every view. -/
theorem add_wide_stride_witness :
    (ConstantPool.init.add (.const (.long 7))).1 = ConstantPool.init.index ∧
    (ConstantPool.init.add (.const (.long 7))).2.index = ConstantPool.init.index + 2 ∧
    alistGet (ConstantPool.init.add (.const (.long 7))).2.forward
      (ConstantPool.init.index + 1) = none ∧
    (ConstantPool.init.add (.const (.long 7))).2.getItemIdx
      (ConstantPool.init.index + 1) = .index (ConstantPool.init.index + 1) ∧
    (ConstantPool.init.add (.const (.long 7))).2.get (ConstantPool.init.index + 1)
      none true = .error () :=
  add_wide_stride ConstantPool.init (.long 7) rfl
    (fun k cc h => by simp [ConstantPool.init, alistGet] at h) rfl

/-! ## Case analysis of the dereference classmethods (for C3) -/

theorem class_deref_no_pending (l : Nat → Option Constant) (i : Nat) :
    Class.dereference l i ≠ .pending := by
  cases h : l i with
  | none => simp [Class.dereference, h]
  | some c => cases c <;> simp [Class.dereference, h]

theorem class_deref_mismatch_iff (l : Nat → Option Constant) (i : Nat) :
    Class.dereference l i = .kindMismatch ↔ ¬∃ s, l i = some (.utf8 s) := by
  cases h : l i with
  | none => simp [Class.dereference, h]
  | some c => cases c <;> simp [Class.dereference, h]

theorem string_deref_no_pending (l : Nat → Option Constant) (i : Nat) :
    String.dereference l i ≠ .pending := by
  cases h : l i with
  | none => simp [String.dereference, h]
  | some c => cases c <;> simp [String.dereference, h]

theorem string_deref_mismatch_iff (l : Nat → Option Constant) (i : Nat) :
    String.dereference l i = .kindMismatch ↔ ¬∃ s, l i = some (.utf8 s) := by
  cases h : l i with
  | none => simp [String.dereference, h]
  | some c => cases c <;> simp [String.dereference, h]

theorem methodType_deref_no_pending (l : Nat → Option Constant) (i : Nat) :
    MethodType.dereference l i ≠ .pending := by
  cases h : l i with
  | none => simp [MethodType.dereference, h]
  | some c => cases c <;> simp [MethodType.dereference, h]

theorem methodType_deref_mismatch_iff (l : Nat → Option Constant) (i : Nat) :
    MethodType.dereference l i = .kindMismatch ↔ ¬∃ s, l i = some (.utf8 s) := by
  cases h : l i with
  | none => simp [MethodType.dereference, h]
  | some c => cases c <;> simp [MethodType.dereference, h]

theorem module_deref_no_pending (l : Nat → Option Constant) (i : Nat) :
    Module.dereference l i ≠ .pending := by
  cases h : l i with
  | none => simp [Module.dereference, h]
  | some c => cases c <;> simp [Module.dereference, h]

theorem module_deref_mismatch_iff (l : Nat → Option Constant) (i : Nat) :
    Module.dereference l i = .kindMismatch ↔ ¬∃ s, l i = some (.utf8 s) := by
  cases h : l i with
  | none => simp [Module.dereference, h]
  | some c => cases c <;> simp [Module.dereference, h]

theorem package_deref_no_pending (l : Nat → Option Constant) (i : Nat) :
    Package.dereference l i ≠ .pending := by
  cases h : l i with
  | none => simp [Package.dereference, h]
  | some c => cases c <;> simp [Package.dereference, h]

theorem package_deref_mismatch_iff (l : Nat → Option Constant) (i : Nat) :
    Package.dereference l i = .kindMismatch ↔ ¬∃ s, l i = some (.utf8 s) := by
  cases h : l i with
  | none => simp [Package.dereference, h]
  | some c => cases c <;> simp [Package.dereference, h]

theorem nameAndType_deref_no_pending (l : Nat → Option Constant) (i j : Nat) :
    NameAndType.dereference l i j ≠ .pending := by
  cases h : l i with
  | none => simp [NameAndType.dereference, h]
  | some c =>
    cases c <;> simp [NameAndType.dereference, h]
    cases h2 : l j with
    | none => simp
    | some d => cases d <;> simp

theorem nameAndType_deref_mismatch_iff (l : Nat → Option Constant) (i j : Nat) :
    NameAndType.dereference l i j = .kindMismatch ↔
      (¬∃ s, l i = some (.utf8 s)) ∨ (¬∃ s, l j = some (.utf8 s)) := by
  cases h : l i with
  | none => simp [NameAndType.dereference, h]
  | some c =>
    cases c <;> simp [NameAndType.dereference, h]
    cases h2 : l j with
    | none => simp
    | some d => cases d <;> simp

theorem fieldRef_deref_pending_iff (l : Nat → Option Constant) (i j : Nat) :
    FieldRef.dereference l i j = .pending ↔
      l i = none ∨ (∃ c, l i = some c ∧ c.isClass = true ∧ l j = none) := by
  cases h : l i with
  | none => simp [FieldRef.dereference, h]
  | some c =>
    cases hc : c.isClass with
    | false => simp [FieldRef.dereference, h, hc]
    | true =>
      cases h2 : l j with
      | none => simp [FieldRef.dereference, h, hc, h2]
      | some n =>
        cases hn : n.isNameAndType <;> simp [FieldRef.dereference, h, hc, h2, hn]

theorem fieldRef_deref_mismatch_iff (l : Nat → Option Constant) (i j : Nat) :
    FieldRef.dereference l i j = .kindMismatch ↔
      (∃ c, l i = some c ∧ c.isClass = false) ∨
      (∃ c n, l i = some c ∧ c.isClass = true ∧ l j = some n ∧
        n.isNameAndType = false) := by
  cases h : l i with
  | none => simp [FieldRef.dereference, h]
  | some c =>
    cases hc : c.isClass with
    | false => simp [FieldRef.dereference, h, hc]
    | true =>
      cases h2 : l j with
      | none => simp [FieldRef.dereference, h, hc, h2]
      | some n =>
        cases hn : n.isNameAndType <;> simp [FieldRef.dereference, h, hc, h2, hn]

theorem methodRef_deref_pending_iff (l : Nat → Option Constant) (i j : Nat) :
    MethodRef.dereference l i j = .pending ↔
      l i = none ∨ (∃ c, l i = some c ∧ c.isClass = true ∧ l j = none) := by
  cases h : l i with
  | none => simp [MethodRef.dereference, h]
  | some c =>
    cases hc : c.isClass with
    | false => simp [MethodRef.dereference, h, hc]
    | true =>
      cases h2 : l j with
      | none => simp [MethodRef.dereference, h, hc, h2]
      | some n =>
        cases hn : n.isNameAndType <;> simp [MethodRef.dereference, h, hc, h2, hn]

theorem methodRef_deref_mismatch_iff (l : Nat → Option Constant) (i j : Nat) :
    MethodRef.dereference l i j = .kindMismatch ↔
      (∃ c, l i = some c ∧ c.isClass = false) ∨
      (∃ c n, l i = some c ∧ c.isClass = true ∧ l j = some n ∧
        n.isNameAndType = false) := by
  cases h : l i with
  | none => simp [MethodRef.dereference, h]
  | some c =>
    cases hc : c.isClass with
    | false => simp [MethodRef.dereference, h, hc]
    | true =>
      cases h2 : l j with
      | none => simp [MethodRef.dereference, h, hc, h2]
      | some n =>
        cases hn : n.isNameAndType <;> simp [MethodRef.dereference, h, hc, h2, hn]

theorem imRef_deref_pending_iff (l : Nat → Option Constant) (i j : Nat) :
    InterfaceMethodRef.dereference l i j = .pending ↔
      l i = none ∨ (∃ c, l i = some c ∧ c.isClass = true ∧ l j = none) := by
  cases h : l i with
  | none => simp [InterfaceMethodRef.dereference, h]
  | some c =>
    cases hc : c.isClass with
    | false => simp [InterfaceMethodRef.dereference, h, hc]
    | true =>
      cases h2 : l j with
      | none => simp [InterfaceMethodRef.dereference, h, hc, h2]
      | some n =>
        cases hn : n.isNameAndType <;>
          simp [InterfaceMethodRef.dereference, h, hc, h2, hn]

theorem imRef_deref_mismatch_iff (l : Nat → Option Constant) (i j : Nat) :
    InterfaceMethodRef.dereference l i j = .kindMismatch ↔
      (∃ c, l i = some c ∧ c.isClass = false) ∨
      (∃ c n, l i = some c ∧ c.isClass = true ∧ l j = some n ∧
        n.isNameAndType = false) := by
  cases h : l i with
  | none => simp [InterfaceMethodRef.dereference, h]
  | some c =>
    cases hc : c.isClass with
    | false => simp [InterfaceMethodRef.dereference, h, hc]
    | true =>
      cases h2 : l j with
      | none => simp [InterfaceMethodRef.dereference, h, hc, h2]
      | some n =>
        cases hn : n.isNameAndType <;>
          simp [InterfaceMethodRef.dereference, h, hc, h2, hn]

theorem methodHandle_deref_pending_iff (l : Nat → Option Constant) (k i : Nat) :
    MethodHandle.dereference l k i = .pending ↔ l i = none := by
  cases h : l i with
  | none => simp [MethodHandle.dereference, h]
  | some r =>
    cases hr : r.isFieldRef || r.isMethodRefLike <;>
      simp [MethodHandle.dereference, h, hr]

theorem methodHandle_deref_mismatch_iff (l : Nat → Option Constant) (k i : Nat) :
    MethodHandle.dereference l k i = .kindMismatch ↔
      ∃ r, l i = some r ∧ r.isFieldRef = false ∧ r.isMethodRefLike = false := by
  cases h : l i with
  | none => simp [MethodHandle.dereference, h]
  | some r =>
    cases h1 : r.isFieldRef <;> cases h2 : r.isMethodRefLike <;>
      simp [MethodHandle.dereference, h, h1, h2]

theorem dynamic_deref_pending_iff (l : Nat → Option Constant) (bsm j : Nat) :
    Dynamic.dereference l bsm j = .pending ↔ l j = none := by
  cases h : l j with
  | none => simp [Dynamic.dereference, h]
  | some n => cases hn : n.isNameAndType <;> simp [Dynamic.dereference, h, hn]

theorem dynamic_deref_mismatch_iff (l : Nat → Option Constant) (bsm j : Nat) :
    Dynamic.dereference l bsm j = .kindMismatch ↔
      ∃ n, l j = some n ∧ n.isNameAndType = false := by
  cases h : l j with
  | none => simp [Dynamic.dereference, h]
  | some n => cases hn : n.isNameAndType <;> simp [Dynamic.dereference, h, hn]

theorem invokeDynamic_deref_pending_iff (l : Nat → Option Constant) (bsm j : Nat) :
    InvokeDynamic.dereference l bsm j = .pending ↔ l j = none := by
  cases h : l j with
  | none => simp [InvokeDynamic.dereference, h]
  | some n => cases hn : n.isNameAndType <;> simp [InvokeDynamic.dereference, h, hn]

theorem invokeDynamic_deref_mismatch_iff (l : Nat → Option Constant) (bsm j : Nat) :
    InvokeDynamic.dereference l bsm j = .kindMismatch ↔
      ∃ n, l j = some n ∧ n.isNameAndType = false := by
  cases h : l j with
  | none => simp [InvokeDynamic.dereference, h]
  | some n => cases hn : n.isNameAndType <;> simp [InvokeDynamic.dereference, h, hn]

/-- C3 counterexample: the claim says every reference-bearing variant
returns Pending when a required referent index is absent from the map.
`Class.dereference` against an empty map raises the kind TypeError
instead of returning Pending (part_001:438-440: `None` fails the
isinstance check like any wrong-kind constant). -/
theorem class_deref_absent_cex :
    Class.dereference (fun _ => none) 1 = DerefResult.kindMismatch ∧
    Class.dereference (fun _ => none) 1 ≠ DerefResult.pending := by
  exact ⟨rfl, by simp [Class.dereference]⟩

/-- C3 amended: the variants whose referents are built constants
(FieldRef, MethodRef, InterfaceMethodRef, MethodHandle, Dynamic,
InvokeDynamic) return Pending exactly when a referent checked before any
wrong-kind one is absent, and fail with the kind TypeError exactly when
the checks reach a present referent of the wrong kind; the variants whose
referents must be Utf8 (Class, String, NameAndType, MethodType, Module,
Package) never return Pending and fail with the kind TypeError exactly
when a required referent is absent or not Utf8. -/
theorem dereference_case_analysis (l : Nat → Option Constant) (i j k : Nat) :
    (Class.dereference l i ≠ .pending ∧
      (Class.dereference l i = .kindMismatch ↔ ¬∃ s, l i = some (.utf8 s))) ∧
    (String.dereference l i ≠ .pending ∧
      (String.dereference l i = .kindMismatch ↔ ¬∃ s, l i = some (.utf8 s))) ∧
    (MethodType.dereference l i ≠ .pending ∧
      (MethodType.dereference l i = .kindMismatch ↔ ¬∃ s, l i = some (.utf8 s))) ∧
    (Module.dereference l i ≠ .pending ∧
      (Module.dereference l i = .kindMismatch ↔ ¬∃ s, l i = some (.utf8 s))) ∧
    (Package.dereference l i ≠ .pending ∧
      (Package.dereference l i = .kindMismatch ↔ ¬∃ s, l i = some (.utf8 s))) ∧
    (NameAndType.dereference l i j ≠ .pending ∧
      (NameAndType.dereference l i j = .kindMismatch ↔
        (¬∃ s, l i = some (.utf8 s)) ∨ (¬∃ s, l j = some (.utf8 s)))) ∧
    ((FieldRef.dereference l i j = .pending ↔
        l i = none ∨ (∃ c, l i = some c ∧ c.isClass = true ∧ l j = none)) ∧
      (FieldRef.dereference l i j = .kindMismatch ↔
        (∃ c, l i = some c ∧ c.isClass = false) ∨
        (∃ c n, l i = some c ∧ c.isClass = true ∧ l j = some n ∧
          n.isNameAndType = false))) ∧
    ((MethodRef.dereference l i j = .pending ↔
        l i = none ∨ (∃ c, l i = some c ∧ c.isClass = true ∧ l j = none)) ∧
      (MethodRef.dereference l i j = .kindMismatch ↔
        (∃ c, l i = some c ∧ c.isClass = false) ∨
        (∃ c n, l i = some c ∧ c.isClass = true ∧ l j = some n ∧
          n.isNameAndType = false))) ∧
    ((InterfaceMethodRef.dereference l i j = .pending ↔
        l i = none ∨ (∃ c, l i = some c ∧ c.isClass = true ∧ l j = none)) ∧
      (InterfaceMethodRef.dereference l i j = .kindMismatch ↔
        (∃ c, l i = some c ∧ c.isClass = false) ∨
        (∃ c n, l i = some c ∧ c.isClass = true ∧ l j = some n ∧
          n.isNameAndType = false))) ∧
    ((MethodHandle.dereference l k i = .pending ↔ l i = none) ∧
      (MethodHandle.dereference l k i = .kindMismatch ↔
        ∃ r, l i = some r ∧ r.isFieldRef = false ∧ r.isMethodRefLike = false)) ∧
    ((Dynamic.dereference l k j = .pending ↔ l j = none) ∧
      (Dynamic.dereference l k j = .kindMismatch ↔
        ∃ n, l j = some n ∧ n.isNameAndType = false)) ∧
    ((InvokeDynamic.dereference l k j = .pending ↔ l j = none) ∧
      (InvokeDynamic.dereference l k j = .kindMismatch ↔
        ∃ n, l j = some n ∧ n.isNameAndType = false)) :=
  ⟨⟨class_deref_no_pending l i, class_deref_mismatch_iff l i⟩,
   ⟨string_deref_no_pending l i, string_deref_mismatch_iff l i⟩,
   ⟨methodType_deref_no_pending l i, methodType_deref_mismatch_iff l i⟩,
   ⟨module_deref_no_pending l i, module_deref_mismatch_iff l i⟩,
   ⟨package_deref_no_pending l i, package_deref_mismatch_iff l i⟩,
   ⟨nameAndType_deref_no_pending l i j, nameAndType_deref_mismatch_iff l i j⟩,
   ⟨fieldRef_deref_pending_iff l i j, fieldRef_deref_mismatch_iff l i j⟩,
   ⟨methodRef_deref_pending_iff l i j, methodRef_deref_mismatch_iff l i j⟩,
   ⟨imRef_deref_pending_iff l i j, imRef_deref_mismatch_iff l i j⟩,
   ⟨methodHandle_deref_pending_iff l k i, methodHandle_deref_mismatch_iff l k i⟩,
   ⟨dynamic_deref_pending_iff l k j, dynamic_deref_mismatch_iff l k j⟩,
   ⟨invokeDynamic_deref_pending_iff l k j, invokeDynamic_deref_mismatch_iff l k j⟩⟩

end Kirjava
